import Mathlib

/-!
Verification of the log_loki delivery engine (`src/task.rs`) and the logfmt
value writer (`src/logfmt.rs`) against its natural-language specification.

The Rust code is shallowly embedded:
* `u128`/`usize` values become `Nat`.  The one place where unsigned wrap-around
  is reachable in ordinary executions — the age computation
  `time - first_timestamp` in `LokiTask::run`, which underflows whenever a log
  carries a timestamp beyond the current clock reading — is modelled with
  explicit wrapping subtraction modulo `2 ^ 128` (the release-profile
  semantics of `u128` subtraction).  The exponential-backoff arithmetic
  `(1 << failures) * 1_000_000_000` is modelled exactly over `Nat`; its `u128`
  overflow would require a failure counter of at least 98, i.e. about
  `2 ^ 98` seconds of accumulated backoff.
* The fallible clock read `SystemTime::now().duration_since(UNIX_EPOCH)
  .expect(..)` is modelled by a `clock : Option Nat` parameter; every function
  that reaches an `expect` site returns `Except String _`, with `.error`
  carrying the source's panic message.  A `.error` result models a panic.
* The HTTP POST performed by `submit_logs` is modelled by an oracle: `Env`
  carries a list of `SendResult`s, one consumed per POST actually issued
  (exhausted oracle entries default to success).  Serialization by
  `serde_json::to_vec` cannot fail on this data shape (strings and maps of
  strings) and the `compress` feature is off, so those error arms are not
  reachable and are not modelled.
* `eprintln!` diagnostics, POST attempts and the flush condition-variable
  notification are recorded as an `Effect` trace in `Env`, so that ordering
  claims ("signals only after ...") are statable.
* `BinaryHeap<Reverse<FailedPush>>` is modelled as a plain list together with
  minimum-extraction (`heapPop`/`heapPeek`): the heap's observable behaviour
  is extraction of an entry with minimal `retry_at` (ties arbitrary; the
  model deterministically takes the first minimal entry), `push` appends and
  `drain` yields the underlying elements.
-/

namespace LogLoki

/-- `FailurePolicy` from the crate root (declared outside `src/task.rs` but
fully determined by its uses there and by the spec's data model):
variant over `Drop` and `Retry(max_retries)`. -/
inductive FailurePolicy where
  | drop
  | retry (max_retries : Nat)
  deriving Repr, DecidableEq

/-- `LokiTaskMsg` from `src/task.rs`: messages sent to the background task. -/
inductive LokiTaskMsg where
  | Log (time : Nat) (log_line : String)
  | Flush
  deriving Repr, DecidableEq

/-- `LokiStream` from `src/task.rs`: the label set plus the accumulated
`[timestamp.to_string(), line]` pairs.  `HashMap<String,String>` becomes an
association list; `Vec<[String; 2]>` becomes `List (String × String)`. -/
structure LokiStream where
  stream : List (String × String)
  values : List (String × String)
  deriving Repr, DecidableEq

/-- `LokiPush` from `src/task.rs`.  The source stores `streams: [LokiStream; 1]`,
a one-element array; the model stores that single element.  `first` is the
timestamp of the first entry of the open batch, `failures` the retry counter
(both `serde(skip)` — not part of the wire body). -/
structure LokiPush where
  streams : LokiStream
  first : Option Nat
  failures : Nat
  deriving Repr, DecidableEq

/-- `FailedPush` from `src/task.rs`: a failed batch queued for retry, ordered
by `retry_at` only (the `derivative` attributes ignore `push` in the ordering). -/
structure FailedPush where
  retry_at : Nat
  push : LokiPush
  deriving Repr, DecidableEq

/-- The configuration fields of `LokiTask` that the delivery logic reads
(`rx`, `agent`, `endpoint` and `headers` only parametrise the transport,
which the model replaces by the send oracle). -/
structure LokiTask where
  labels : List (String × String)
  max_log_lines : Nat
  max_log_lifetime : Nat
  failure_policy : FailurePolicy
  deriving Repr, DecidableEq

/-- The two shapes of `ureq::Error` distinguished by `submit_logs`:
`Error::StatusCode(code)` and every other (non-status) error. -/
inductive UreqError where
  | statusCode (code : Nat)
  | other (emsg : String)
  deriving Repr, DecidableEq

/-- Result of one HTTP POST (`request.send(&serialized)`). -/
inductive SendResult where
  | ok
  | err (e : UreqError)
  deriving Repr, DecidableEq

/-- Observable effects of the delivery path: an HTTP POST attempt carrying a
batch, an `eprintln!` diagnostic, and the flush condition-variable
notification. -/
inductive Effect where
  | attempt (push : LokiPush)
  | diag (msg : String)
  | signal
  deriving Repr, DecidableEq

/-- The environment threaded through the engine: the oracle of POST outcomes
(consumed front-to-back, defaulting to success when exhausted) and the
accumulated effect trace. -/
structure Env where
  sends : List SendResult
  effects : List Effect
  deriving Repr, DecidableEq

/-- Consume the next POST outcome from the oracle. -/
def takeSend (env : Env) : SendResult × Env :=
  (env.sends.headD SendResult.ok, { env with sends := env.sends.tail })

/-- Record an effect. -/
def emit (e : Effect) (env : Env) : Env :=
  { env with effects := env.effects ++ [e] }

/-- The error-classification of `submit_logs` (src/task.rs lines 193-198):
a status-code error is transient iff `code == 408 || code == 429 || code >= 500`;
every non-status error is transient.  Returns `(emsg, transistent)`,
keeping the source's spelling of the flag. -/
def classify : UreqError → String × Bool
  | UreqError.statusCode code =>
      (s!"HTTP {code}", code == 408 || code == 429 || decide (500 ≤ code))
  | UreqError.other emsg => (emsg, true)

/-- Extract an entry with minimal `retry_at` from the queue (first minimal
entry on ties), returning it and the remaining queue.  This is the observable
behaviour of popping `BinaryHeap<Reverse<FailedPush>>`. -/
def heapPop : List FailedPush → Option (FailedPush × List FailedPush)
  | [] => none
  | fp :: rest =>
    match heapPop rest with
    | none => some (fp, rest)
    | some (m, rest') =>
      if fp.retry_at ≤ m.retry_at then some (fp, rest) else some (m, fp :: rest')

/-- `BinaryHeap::peek` on the reverse-ordered heap: an entry with minimal
`retry_at`, if any. -/
def heapPeek (dlq : List FailedPush) : Option FailedPush :=
  (heapPop dlq).map (fun p => p.1)

/-- Lines 235-253 of `src/task.rs`: clone the batch, increment its failure
counter, reset the caller's open batch, read the clock, compute the
exponential backoff `now + (1 << failures) * 1_000_000_000` and push the
clone onto the retry queue. -/
def fail_push (lp : LokiPush) (dlq : List FailedPush) (clock : Option Nat)
    (env : Env) : Except String (LokiPush × List FailedPush × Env) :=
  let lpc := { lp with failures := lp.failures + 1 }
  let lp := { lp with streams := { lp.streams with values := [] }, first := none }
  match clock with
  | none => Except.error "The current moment is beyond the Unix Epoch."
  | some now =>
    let retry_at := now + 2 ^ lpc.failures * 1000000000
    Except.ok (lp, dlq ++ [{ retry_at := retry_at, push := lpc }], env)

/-- `LokiTask::fail` (src/task.rs lines 209-254).  Note the control flow of
the source: the `Drop`-policy / non-transient arm and the retries-exhausted
arm print a diagnostic and return immediately — without touching the caller's
batch; only the fall-through (lines 235-253, `fail_push`) resets the open
batch and pushes the clone.  The `drop` arm of the inner match mirrors the
source's fall-through when the `else if let Retry(..)` pattern does not
match; it is unreachable because the first guard already caught `Drop`. -/
def fail (task : LokiTask) (lp : LokiPush) (dlq : List FailedPush)
    (emsg : String) (transistent : Bool) (clock : Option Nat) (env : Env) :
    Except String (LokiPush × List FailedPush × Env) :=
  if task.failure_policy = FailurePolicy.drop ∨ transistent = false then
    let n := lp.streams.values.length
    Except.ok (lp, dlq,
      emit (Effect.diag s!"(Loki) Failed to push batch of {n} logs: {emsg}; Dropping...") env)
  else
    match task.failure_policy with
    | FailurePolicy.retry max_retries =>
      if lp.failures > max_retries then
        let n := lp.streams.values.length
        Except.ok (lp, dlq,
          emit (Effect.diag s!"(Loki) Failed to push batch of {n} logs: {emsg}; Exceeded max retries of {max_retries}, dropping...") env)
      else
        let n := lp.streams.values.length
        let a := lp.failures + 1
        let b := max_retries + 1
        fail_push lp dlq clock
          (emit (Effect.diag s!"(Loki) Failed to push batch of {n} logs: {emsg}; Attempt {a} of {b}") env)
    | FailurePolicy.drop => fail_push lp dlq clock env

/-- `LokiTask::submit_logs` (src/task.rs lines 146-206): no-op when the open
batch has no first timestamp; otherwise serialize (infallible on this data
shape), POST (consuming one oracle outcome and recording the attempt), and on
success clear the batch's entries and first timestamp, on error classify and
route to `fail`. -/
def submit_logs (task : LokiTask) (lp : LokiPush) (dlq : List FailedPush)
    (clock : Option Nat) (env : Env) :
    Except String (LokiPush × List FailedPush × Env) :=
  if lp.first = none then Except.ok (lp, dlq, env)
  else
    let s := takeSend env
    let env := emit (Effect.attempt lp) s.2
    match s.1 with
    | SendResult.ok =>
      Except.ok ({ lp with streams := { lp.streams with values := [] }, first := none },
        dlq, env)
    | SendResult.err e =>
      let c := classify e
      fail task lp dlq c.1 c.2 clock env

/-- `LokiTask::retry_failed` (src/task.rs lines 258-279): read the clock;
if the earliest queued entry exists and is due, pop it and resubmit it with
the rest of the queue, returning whether work was done.  The `.error` on an
impossible pop mirrors the source's `expect` message. -/
def retry_failed (task : LokiTask) (dlq : List FailedPush) (clock : Option Nat)
    (env : Env) : Except String (Bool × List FailedPush × Env) :=
  match clock with
  | none => Except.error "The current moment is beyond the Unix Epoch."
  | some now =>
    match heapPeek dlq with
    | none => Except.ok (false, dlq, env)
    | some v =>
      if v.retry_at > now then Except.ok (false, dlq, env)
      else
        match heapPop dlq with
        | none => Except.error "We checked if this had a value in the peek() above"
        | some (m, rest) =>
          match submit_logs task m.push rest clock env with
          | Except.error e => Except.error e
          | Except.ok (_, dlq, env) => Except.ok (true, dlq, env)

/-- The loop body of `LokiTask::retry_all_failed`: drain the old queue,
resubmitting each entry's cloned batch against the fresh accumulator `t`. -/
def retryAllGo (task : LokiTask) (clock : Option Nat) :
    List FailedPush → List FailedPush → Env →
    Except String (List FailedPush × Env)
  | [], t, env => Except.ok (t, env)
  | v :: rest, t, env =>
    match submit_logs task v.push t clock env with
    | Except.error e => Except.error e
    | Except.ok (_, t, env) => retryAllGo task clock rest t env

/-- `LokiTask::retry_all_failed` (src/task.rs lines 282-290): force-attempt
every queued entry regardless of `retry_at`, collecting renewed failures into
a fresh queue that replaces the old one. -/
def retry_all_failed (task : LokiTask) (dlq : List FailedPush)
    (clock : Option Nat) (env : Env) : Except String (List FailedPush × Env) :=
  retryAllGo task clock dlq [] env

/-- The `while self.retry_failed(&mut dlq) {}` loop (src/task.rs line 141),
with fuel.  Called with fuel `dlq.length + 1`: each iteration that returns
`true` pops an entry that was due and pushes only entries scheduled strictly
in the future, so the loop exits by `retry_failed` returning `false` before
the fuel runs out (the fuel-0 arm is unreachable from `step`). -/
def retryDrain (task : LokiTask) (clock : Option Nat) :
    Nat → List FailedPush → Env → Except String (List FailedPush × Env)
  | 0, dlq, env => Except.ok (dlq, env)
  | fuel + 1, dlq, env =>
    match retry_failed task dlq clock env with
    | Except.error e => Except.error e
    | Except.ok (did, dlq, env) =>
      if did then retryDrain task clock fuel dlq env else Except.ok (dlq, env)

/-- What `rx.recv_timeout` produced for one iteration of the engine loop:
a message, a timeout (proceed to maintenance), or channel closure. -/
inductive RecvResult where
  | msg (m : LokiTaskMsg)
  | timeout
  | closed
  deriving Repr, DecidableEq

/-- The mutable state of `LokiTask::run`: the open batch, the retry delay
queue, the flush-notification flag, and whether the loop has returned. -/
structure TaskState where
  lp : LokiPush
  dlq : List FailedPush
  flushed : Bool
  done : Bool
  deriving Repr, DecidableEq

/-- The open batch `run` starts with (src/task.rs lines 81-88). -/
def initPush (task : LokiTask) : LokiPush :=
  { streams := { stream := task.labels, values := [] }, first := none, failures := 0 }

/-- `2 ^ 128`, the modulus of `u128` arithmetic. -/
def U128_MOD : Nat := 2 ^ 128

/-- `u128` wrapping subtraction (release-profile semantics of `a - b`). -/
def wrappingSub128 (a b : Nat) : Nat :=
  (a % U128_MOD + (U128_MOD - b % U128_MOD)) % U128_MOD

/-- One iteration of the engine loop `LokiTask::run` (src/task.rs lines
91-142), handling a single receive result:
* `Log(time, log_line)`: push `[time.to_string(), log_line]`; if the entry
  count now equals `max_log_lines`, submit; then set `first` if it is unset
  (the source performs the size-check submission *before* recording `first`).
* `Flush`: submit the open batch, force-retry the whole queue, then set the
  shared flag and notify the condition variable.
* closed channel: submit, force-retry everything, terminate.
* timeout: if the open batch has a first timestamp, read the clock and submit
  when `time - first > max_log_lifetime` (u128 wrapping subtraction),
  restarting the loop; otherwise drain due retries. -/
def step (task : LokiTask) (st : TaskState) (r : RecvResult)
    (clock : Option Nat) (env : Env) : Except String (TaskState × Env) :=
  match r with
  | RecvResult.msg (LokiTaskMsg.Log time log_line) =>
    let lp0 := { st.lp with streams :=
      { st.lp.streams with values := st.lp.streams.values ++ [(toString time, log_line)] } }
    let sub :=
      if lp0.streams.values.length = task.max_log_lines then
        submit_logs task lp0 st.dlq clock env
      else Except.ok (lp0, st.dlq, env)
    match sub with
    | Except.error e => Except.error e
    | Except.ok (lp1, dlq1, env1) =>
      let lp2 := if lp1.first = none then { lp1 with first := some time } else lp1
      Except.ok ({ st with lp := lp2, dlq := dlq1 }, env1)
  | RecvResult.msg LokiTaskMsg.Flush =>
    match submit_logs task st.lp st.dlq clock env with
    | Except.error e => Except.error e
    | Except.ok (lp1, dlq1, env1) =>
      match retry_all_failed task dlq1 clock env1 with
      | Except.error e => Except.error e
      | Except.ok (dlq2, env2) =>
        Except.ok ({ st with lp := lp1, dlq := dlq2, flushed := true },
          emit Effect.signal env2)
  | RecvResult.closed =>
    match submit_logs task st.lp st.dlq clock env with
    | Except.error e => Except.error e
    | Except.ok (lp1, dlq1, env1) =>
      match retry_all_failed task dlq1 clock env1 with
      | Except.error e => Except.error e
      | Except.ok (dlq2, env2) =>
        Except.ok ({ st with lp := lp1, dlq := dlq2, done := true }, env2)
  | RecvResult.timeout =>
    match st.lp.first with
    | some first_timestamp =>
      match clock with
      | none => Except.error "The current moment is beyond the UNIX Epoch"
      | some time =>
        if wrappingSub128 time first_timestamp > task.max_log_lifetime then
          match submit_logs task st.lp st.dlq clock env with
          | Except.error e => Except.error e
          | Except.ok (lp1, dlq1, env1) =>
            Except.ok ({ st with lp := lp1, dlq := dlq1 }, env1)
        else
          match retryDrain task clock (st.dlq.length + 1) st.dlq env with
          | Except.error e => Except.error e
          | Except.ok (dlq1, env1) =>
            Except.ok ({ st with dlq := dlq1 }, env1)
    | none =>
      match retryDrain task clock (st.dlq.length + 1) st.dlq env with
      | Except.error e => Except.error e
      | Except.ok (dlq1, env1) =>
        Except.ok ({ st with dlq := dlq1 }, env1)

/-- `INVALID_KEY_CHARS` from `src/logfmt.rs`: characters removed from logfmt
keys. -/
def INVALID_KEY_CHARS : List Char := [' ', '=', '"']

/-- The configuration of `LogfmtFormatter` (`include_fields` is the bitflags
word, unread by `write_pair`). -/
structure LogfmtFormatter where
  include_fields : Nat
  escape_newlines : Bool
  deriving Repr, DecidableEq

/-- Rust `char::is_control`: the Unicode `Cc` general category,
`U+0000..U+001F` and `U+007F..U+009F`. -/
def isControlRust (c : Char) : Bool :=
  c.toNat < 32 || (127 ≤ c.toNat && c.toNat ≤ 159)

/-- Rust `char::escape_unicode` as `Display`ed: a backslash, `u`, and the
code point in lowercase hexadecimal between braces. -/
def escapeUnicode (c : Char) : String :=
  "\\u\x7b" ++ (Nat.toDigits 16 c.toNat).asString ++ "\x7d"

/-- One iteration of the value-reformatting loop of `write_pair`
(src/logfmt.rs lines 67-97), folding over `(formatted_value, need_quotes)`. -/
def writeValueChar (fmt : LogfmtFormatter) (acc : String × Bool) (chr : Char) :
    String × Bool :=
  if chr = '\\' ∨ chr = '"' then
    ((acc.1.push '\\').push chr, true)
  else if chr = ' ' ∨ chr = '=' then
    (acc.1.push chr, true)
  else if chr = '\n' ∨ chr = '\r' ∨ chr = '\t' then
    ((if fmt.escape_newlines then acc.1.push '\\' else acc.1).push chr, true)
  else if !isControlRust chr then
    (acc.1.push chr, acc.2)
  else
    (acc.1 ++ escapeUnicode chr, true)

/-- The value reformatting of `write_pair` (src/logfmt.rs lines 63-100):
fold the escaping loop over the value, then — in the source as given — push a
single trailing `'"'` when `need_quotes` is set (no opening quote is ever
written). -/
def formatValue (fmt : LogfmtFormatter) (val : String) : String :=
  let fv := val.toList.foldl (writeValueChar fmt) ("", false)
  if fv.2 then fv.1.push '"' else fv.1

/-- The key normalization of `write_pair` (src/logfmt.rs lines 45-56):
drop `INVALID_KEY_CHARS`, and replace a now-empty key by `"_"`. -/
def normalizeKey (key : String) : String :=
  let key := String.mk (key.toList.filter (fun c => !INVALID_KEY_CHARS.contains c))
  if key.isEmpty then key.push '_' else key

/-- `LogfmtFormatter::write_pair` (src/logfmt.rs lines 44-103): normalize the
key, drop the pair when the key already exists, reformat the value, insert.
The `HashMap` becomes an association list (insertion appends). -/
def write_pair (fmt : LogfmtFormatter) (attributes : List (String × String))
    (key : String) (val : String) : List (String × String) :=
  let key := normalizeKey key
  if (attributes.map Prod.fst).contains key then attributes
  else attributes ++ [(key, formatValue fmt val)]

/-! Concrete fixtures used by witnesses and by the evaluations of the claims
that the code violates. -/

/-- An environment with an empty oracle (every POST succeeds) and no recorded
effects. -/
def envEmpty : Env := { sends := [], effects := [] }

/-- An environment whose next POST answers HTTP 503. -/
def env503 : Env :=
  { sends := [SendResult.err (UreqError.statusCode 503)], effects := [] }

/-- A task configured with `failure_policy = Retry(1)`. -/
def taskRetry1 : LokiTask :=
  { labels := [], max_log_lines := 10, max_log_lifetime := 1000000000000,
    failure_policy := FailurePolicy.retry 1 }

/-- A task configured with `failure_policy = Drop`. -/
def taskDropPolicy : LokiTask :=
  { labels := [], max_log_lines := 10, max_log_lifetime := 1000000000000,
    failure_policy := FailurePolicy.drop }

/-- A task configured with `max_log_lines = 1`. -/
def taskMax1 : LokiTask :=
  { labels := [], max_log_lines := 1, max_log_lifetime := 1000000000000,
    failure_policy := FailurePolicy.retry 3 }

/-- A task configured with `max_log_lines = 2`. -/
def taskMax2 : LokiTask :=
  { labels := [], max_log_lines := 2, max_log_lifetime := 1000000000000,
    failure_policy := FailurePolicy.retry 3 }

/-- An open batch holding one entry, first timestamp 1, no failures yet. -/
def lpOne : LokiPush :=
  { streams := { stream := [], values := [("1", "a")] }, first := some 1, failures := 0 }

/-- An open batch holding one entry with failure counter 5 (past `Retry(1)`). -/
def lpFive : LokiPush :=
  { streams := { stream := [], values := [("1", "a")] }, first := some 1, failures := 5 }

/-- The retry-queue entry produced by the first transient failure of `lpOne`
at clock 0 under `taskRetry1`. -/
def fp1 : FailedPush :=
  { retry_at := 2000000000,
    push := { streams := { stream := [], values := [("1", "a")] },
              first := some 1, failures := 1 } }

/-- Engine state with a fresh, empty open batch and empty queue. -/
def stFresh : TaskState :=
  { lp := { streams := { stream := [], values := [] }, first := none, failures := 0 },
    dlq := [], flushed := false, done := false }

/-- Engine state whose open batch is `lpOne`. -/
def stOneEntry : TaskState :=
  { lp := lpOne, dlq := [], flushed := false, done := false }

/-- The default-ish logfmt formatter with newline escaping off. -/
def logfmtDefault : LogfmtFormatter := { include_fields := 0, escape_newlines := false }

/-! ## Claims -/

/-- C4, counterexample: the claim states that a status-code error is transient
if and only if the code lies in `{408, 429} ∪ [500, 599]`, but `classify`
(src/task.rs line 195) tests `code >= 500` with no upper bound: HTTP 600 is
classified transient although it is outside the claimed set. -/
theorem c4_counterexample :
    (classify (UreqError.statusCode 600)).2 = true ∧
    ¬ (600 ∈ ({408, 429} : Set Nat) ∪ Set.Icc 500 599) := by
  constructor
  · decide
  · simp [Set.mem_union, Set.mem_insert_iff, Set.mem_singleton_iff, Set.mem_Icc]

/-- C4, amended: the submission outcome classifier treats a status-code error
as transient if and only if the code is 408, 429 or at least 500 (so on the
standard range up to 599 this agrees with the claim, but codes of 600 and
above are also treated as transient); every other status error is permanent;
every non-status error is transient; in particular 503 and 429 are transient
and 400 is permanent. -/
theorem c4_classification (code : Nat) (emsg : String) :
    ((classify (UreqError.statusCode code)).2 = true ↔
      code ∈ ({408, 429} : Set Nat) ∪ Set.Ici 500) ∧
    (classify (UreqError.other emsg)).2 = true ∧
    (classify (UreqError.statusCode 503)).2 = true ∧
    (classify (UreqError.statusCode 429)).2 = true ∧
    (classify (UreqError.statusCode 400)).2 = false := by
  refine ⟨?_, rfl, by decide, by decide, by decide⟩
  simp only [classify, Bool.or_eq_true, beq_iff_eq, decide_eq_true_eq,
    Set.mem_union, Set.mem_insert_iff, Set.mem_singleton_iff, Set.mem_Ici]

/-- C1, evaluation at the failing input: `fail` with `failure_policy = Drop`
on a non-transient failure (first conjunct), and `fail` on a transient
failure with the failure counter already past `max_retries` (second
conjunct), both return with the caller's open batch untouched — its entries
and `first` timestamp are NOT cleared, contradicting the claim that every
retry and drop path resets the open batch (the source's early `return`s at
src/task.rs lines 216 and 225 skip the reset at lines 239-240). -/
theorem c1_drop_paths_keep_batch :
    (fail taskDropPolicy lpOne [] "HTTP 400" false (some 0) envEmpty).toOption.map
      (fun out => (out.1.streams.values, out.1.first)) = some ([("1", "a")], some 1) ∧
    (fail taskRetry1 lpFive [] "HTTP 503" true (some 0) envEmpty).toOption.map
      (fun out => (out.1.streams.values, out.1.first)) = some ([("1", "a")], some 1) := by
  exact ⟨rfl, rfl⟩

/-- C2, evaluation at the failing input: under `Retry(max_retries = 1)`, the
first transient failure of `lpOne` enqueues a copy with failure counter 1
(`fp1`); when that retry fails transiently again — the second consecutive
failure of the lineage — the handler finds `failures = 1 > 1` false and
schedules a THIRD delivery attempt (queue entry with failure counter 2, due
at 6000000000 ns) instead of dropping the batch after the second failure as
the claim states. -/
theorem c2_second_failure_schedules_third_attempt :
    (fail taskRetry1 lpOne [] "HTTP 503" true (some 0) envEmpty).toOption.map
      (fun out => out.2.1) = some [fp1] ∧
    (retry_failed taskRetry1 [fp1] (some 2000000000) env503).toOption.map
      (fun out => (out.1, out.2.1.map (fun fp => (fp.retry_at, fp.push.failures)))) =
      some (true, [(6000000000, 2)]) := by
  exact ⟨rfl, rfl⟩

/-- C3, evaluation at the failing input: the source records `first_timestamp`
only AFTER the size-check submission (src/task.rs lines 98-103), not before
it as the claim orders the steps.  First conjunct: with `max_log_lines = 1`,
the very first `Log` message brings the count to the maximum, but the
submission is a no-op (`first` is still unset when `submit_logs` runs), no
POST attempt is recorded, and the entry stays in the open batch — the
size-triggered submission the claim promises never happens.  Second
conjunct: with `max_log_lines = 2` and one buffered entry, processing the
second `Log(2, _)` submits successfully but then stamps the fresh empty
batch with `first = some 2`, where the claim's ordering leaves `first`
cleared. -/
theorem c3_first_timestamp_misordered :
    (step taskMax1 stFresh (RecvResult.msg (LokiTaskMsg.Log 1 "a")) (some 0)
        envEmpty).toOption.map
      (fun out => (out.1.lp.streams.values, out.1.lp.first, out.2.effects)) =
      some ([("1", "a")], some 1, []) ∧
    (step taskMax2 stOneEntry (RecvResult.msg (LokiTaskMsg.Log 2 "b")) (some 0)
        envEmpty).toOption.map
      (fun out => (out.1.lp.streams.values, out.1.lp.first)) =
      some ([], some 2) := by
  exact ⟨rfl, rfl⟩

/-- C9, evaluation at the failing input: `write_pair` never writes an opening
quote — when `need_quotes` is set it appends a single trailing `'"'`
(src/logfmt.rs lines 98-100), so no value is ever "output quoted" as the
claim states.  The four conjuncts evaluate the claim's scenarios: a value
with a space, a value that is only a space, a value containing `'"'`
(backslash-escaped, as claimed), and a value containing the non-whitelisted
control character U+0001 (replaced by its escape sequence, as claimed) — in
every case the stored value carries only the trailing quote. -/
theorem c9_values_not_quoted :
    write_pair logfmtDefault [] "k" "a b" = [("k", "a b\"")] ∧
    write_pair logfmtDefault [] "k" " " = [("k", " \"")] ∧
    write_pair logfmtDefault [] "k" "a\"b" = [("k", "a\\\"b\"")] ∧
    write_pair logfmtDefault [] "k" "a\x01b" = [("k", "a\\u\x7b1\x7db\"")] := by
  refine ⟨?_, ?_, ?_, ?_⟩ <;> decide

/-! Lemmas about the minimum-extraction model of the reverse-ordered binary
heap. -/

/-- `heapPop` yields `none` exactly on the empty queue. -/
lemma heapPop_eq_none_iff (l : List FailedPush) : heapPop l = none ↔ l = [] := by
  cases l with
  | nil => simp [heapPop]
  | cons fp rest =>
    simp only [heapPop]
    cases hp : heapPop rest with
    | none => simp
    | some p =>
      obtain ⟨m, rest'⟩ := p
      by_cases hle : fp.retry_at ≤ m.retry_at <;> simp [hle]

/-- The entry `heapPop` extracts has minimal `retry_at` in the queue. -/
lemma heapPop_min (l : List FailedPush) :
    ∀ m r, heapPop l = some (m, r) → ∀ x ∈ l, m.retry_at ≤ x.retry_at := by
  induction l with
  | nil => intro m r h; simp [heapPop] at h
  | cons fp rest ih =>
    intro m r h x hx
    simp only [heapPop] at h
    split at h
    · rename_i hp
      simp only [Option.some.injEq, Prod.mk.injEq] at h
      obtain ⟨rfl, rfl⟩ := h
      have hrest : rest = [] := (heapPop_eq_none_iff rest).mp hp
      subst hrest
      rcases List.mem_cons.mp hx with rfl | hx'
      · exact le_refl _
      · simp at hx'
    · rename_i m' r' hp
      split at h
      · rename_i hle
        simp only [Option.some.injEq, Prod.mk.injEq] at h
        obtain ⟨rfl, rfl⟩ := h
        rcases List.mem_cons.mp hx with rfl | hx'
        · exact le_refl _
        · exact le_trans hle (ih m' r' hp x hx')
      · rename_i hle
        simp only [Option.some.injEq, Prod.mk.injEq] at h
        obtain ⟨rfl, rfl⟩ := h
        rcases List.mem_cons.mp hx with rfl | hx'
        · exact le_of_lt (lt_of_not_le hle)
        · exact ih m' r' hp x hx'

/-- The entry `heapPop` extracts is a member of the queue, and the remainder
is included in the queue. -/
lemma heapPop_mem_sub (l : List FailedPush) :
    ∀ m r, heapPop l = some (m, r) → m ∈ l ∧ ∀ x ∈ r, x ∈ l := by
  induction l with
  | nil => intro m r h; simp [heapPop] at h
  | cons fp rest ih =>
    intro m r h
    simp only [heapPop] at h
    split at h
    · rename_i hp
      simp only [Option.some.injEq, Prod.mk.injEq] at h
      obtain ⟨rfl, rfl⟩ := h
      exact ⟨List.mem_cons_self _ _, fun x hx => List.mem_cons_of_mem _ hx⟩
    · rename_i m' r' hp
      split at h
      · rename_i hle
        simp only [Option.some.injEq, Prod.mk.injEq] at h
        obtain ⟨rfl, rfl⟩ := h
        exact ⟨List.mem_cons_self _ _, fun x hx => List.mem_cons_of_mem _ hx⟩
      · rename_i hle
        simp only [Option.some.injEq, Prod.mk.injEq] at h
        obtain ⟨rfl, rfl⟩ := h
        obtain ⟨hm', hsub⟩ := ih m' r' hp
        refine ⟨List.mem_cons_of_mem _ hm', fun x hx => ?_⟩
        rcases List.mem_cons.mp hx with rfl | hx'
        · exact List.mem_cons_self _ _
        · exact List.mem_cons_of_mem _ (hsub x hx')

/-! Success of every delivery-path component when the clock is readable:
these lemmas show that the `Except.error` arms — the source's panic sites —
are reachable only through an unreadable clock. -/

/-- `fail_push` cannot panic once the clock has produced a reading. -/
lemma fail_push_some_ok (lp : LokiPush) (dlq : List FailedPush) (now : Nat)
    (env : Env) : ∃ out, fail_push lp dlq (some now) env = Except.ok out :=
  ⟨_, rfl⟩

/-- `fail` cannot panic once the clock has produced a reading. -/
lemma fail_some_ok (task : LokiTask) (lp : LokiPush) (dlq : List FailedPush)
    (emsg : String) (tr : Bool) (now : Nat) (env : Env) :
    ∃ out, fail task lp dlq emsg tr (some now) env = Except.ok out := by
  unfold fail
  split
  · exact ⟨_, rfl⟩
  · split
    · split
      · exact ⟨_, rfl⟩
      · exact fail_push_some_ok _ _ _ _
    · exact fail_push_some_ok _ _ _ _

/-- `submit_logs` cannot panic once the clock has produced a reading. -/
lemma submit_logs_some_ok (task : LokiTask) (lp : LokiPush)
    (dlq : List FailedPush) (now : Nat) (env : Env) :
    ∃ out, submit_logs task lp dlq (some now) env = Except.ok out := by
  simp only [submit_logs]
  split
  · exact ⟨_, rfl⟩
  · split
    · exact ⟨_, rfl⟩
    · exact fail_some_ok _ _ _ _ _ _ _

/-- `retry_failed` cannot panic once the clock has produced a reading: in
particular the `expect` on the pop is unreachable, because a successful peek
guarantees a successful pop. -/
lemma retry_failed_some_ok (task : LokiTask) (dlq : List FailedPush)
    (now : Nat) (env : Env) :
    ∃ out, retry_failed task dlq (some now) env = Except.ok out := by
  simp only [retry_failed]
  cases hpk : heapPeek dlq with
  | none => exact ⟨_, rfl⟩
  | some v =>
    by_cases hgt : v.retry_at > now
    · simp only [hgt, if_true]
      exact ⟨_, rfl⟩
    · simp only [hgt, if_false]
      obtain ⟨p, hp⟩ : ∃ p, heapPop dlq = some p := by
        cases hp0 : heapPop dlq with
        | none => rw [heapPeek, hp0] at hpk; simp at hpk
        | some p => exact ⟨p, rfl⟩
      obtain ⟨m, rest⟩ := p
      obtain ⟨out, hout⟩ := submit_logs_some_ok task m.push rest now env
      obtain ⟨a, b, c⟩ := out
      simp only [hp, hout]
      exact ⟨_, rfl⟩

/-- The forced-retry drain cannot panic once the clock has produced a
reading. -/
lemma retryAllGo_some_ok (task : LokiTask) (now : Nat) :
    ∀ l t env, ∃ out, retryAllGo task (some now) l t env = Except.ok out := by
  intro l
  induction l with
  | nil => intro t env; exact ⟨_, rfl⟩
  | cons v rest ih =>
    intro t env
    simp only [retryAllGo]
    obtain ⟨out, hout⟩ := submit_logs_some_ok task v.push t now env
    obtain ⟨a, b, c⟩ := out
    rw [hout]
    exact ih b c

/-- The due-retry loop cannot panic once the clock has produced a reading. -/
lemma retryDrain_some_ok (task : LokiTask) (now : Nat) :
    ∀ fuel dlq env, ∃ out, retryDrain task (some now) fuel dlq env = Except.ok out := by
  intro fuel
  induction fuel with
  | zero => intro dlq env; exact ⟨_, rfl⟩
  | succ fuel ih =>
    intro dlq env
    simp only [retryDrain]
    obtain ⟨out, hout⟩ := retry_failed_some_ok task dlq now env
    obtain ⟨did, dlq2, env2⟩ := out
    rw [hout]
    cases did
    · exact ⟨_, rfl⟩
    · exact ih dlq2 env2

/-- C8: for every execution of the delivery path — any engine state, any
received input (including a `Log` message whose timestamp exceeds the
current clock reading: the age computation uses `u128` wrapping subtraction
and merely overshoots the lifetime bound), any send outcome supplied by the
oracle — one iteration of the engine loop completes without reaching a panic
site whenever the clock produces a reading, i.e. whenever the current moment
is not before the UNIX epoch.  Contrapositively, a fatal panic requires the
physical-clock invariant to be violated (`clock = none`). -/
theorem c8_only_clock_panics (task : LokiTask) (st : TaskState)
    (r : RecvResult) (now : Nat) (env : Env) :
    ∃ out, step task st r (some now) env = Except.ok out := by
  cases r with
  | msg m =>
    cases m with
    | Log time log_line =>
      simp only [step]
      by_cases hlen :
          (st.lp.streams.values ++ [(toString time, log_line)]).length = task.max_log_lines
      · rw [if_pos hlen]
        obtain ⟨out, hout⟩ := submit_logs_some_ok task
          { st.lp with streams := { st.lp.streams with
              values := st.lp.streams.values ++ [(toString time, log_line)] } }
          st.dlq now env
        obtain ⟨a, b, c⟩ := out
        simp only [hout]
        exact ⟨_, rfl⟩
      · rw [if_neg hlen]
        exact ⟨_, rfl⟩
    | Flush =>
      simp only [step]
      obtain ⟨out, hout⟩ := submit_logs_some_ok task st.lp st.dlq now env
      obtain ⟨a, b, c⟩ := out
      obtain ⟨out2, hout2⟩ := retryAllGo_some_ok task now b [] c
      obtain ⟨d, e⟩ := out2
      simp only [hout, retry_all_failed, hout2]
      exact ⟨_, rfl⟩
  | closed =>
    simp only [step]
    obtain ⟨out, hout⟩ := submit_logs_some_ok task st.lp st.dlq now env
    obtain ⟨a, b, c⟩ := out
    obtain ⟨out2, hout2⟩ := retryAllGo_some_ok task now b [] c
    obtain ⟨d, e⟩ := out2
    simp only [hout, retry_all_failed, hout2]
    exact ⟨_, rfl⟩
  | timeout =>
    simp only [step]
    split
    · split
      · obtain ⟨out, hout⟩ := submit_logs_some_ok task st.lp st.dlq now env
        obtain ⟨a, b, c⟩ := out
        simp only [hout]
        exact ⟨_, rfl⟩
      · obtain ⟨out, hout⟩ := retryDrain_some_ok task now (st.dlq.length + 1) st.dlq env
        obtain ⟨a, b⟩ := out
        simp only [hout]
        exact ⟨_, rfl⟩
    · obtain ⟨out, hout⟩ := retryDrain_some_ok task now (st.dlq.length + 1) st.dlq env
      obtain ⟨a, b⟩ := out
      simp only [hout]
      exact ⟨_, rfl⟩

/-- C7: `retry_failed` is the single-retry step of the delay queue.  The
entry `heapPop` selects is a member of the queue with minimal `retry_at`;
on an empty queue, and when the earliest entry is not yet due, `retry_failed`
returns `false` leaving the queue and environment unchanged; when the
earliest entry is due it is popped and resubmitted through `submit_logs`
against the remaining queue, and `retry_failed` returns `true` together with
the submission's resulting queue and environment. -/
theorem c7_retry_one (task : LokiTask) (dlq : List FailedPush) (now : Nat)
    (env : Env) :
    (∀ m rest, heapPop dlq = some (m, rest) →
      m ∈ dlq ∧ ∀ x ∈ dlq, m.retry_at ≤ x.retry_at) ∧
    (heapPop dlq = none →
      retry_failed task dlq (some now) env = Except.ok (false, dlq, env)) ∧
    (∀ m rest, heapPop dlq = some (m, rest) → now < m.retry_at →
      retry_failed task dlq (some now) env = Except.ok (false, dlq, env)) ∧
    (∀ m rest, heapPop dlq = some (m, rest) → m.retry_at ≤ now →
      ∃ out, submit_logs task m.push rest (some now) env = Except.ok out ∧
        retry_failed task dlq (some now) env =
          Except.ok (true, out.2.1, out.2.2)) := by
  refine ⟨?_, ?_, ?_, ?_⟩
  · intro m rest h
    exact ⟨(heapPop_mem_sub dlq m rest h).1, heapPop_min dlq m rest h⟩
  · intro h
    simp only [retry_failed, heapPeek, h, Option.map_none']
  · intro m rest h hlt
    simp only [retry_failed, heapPeek, h, Option.map_some']
    rw [if_pos hlt]
  · intro m rest h hle
    obtain ⟨out, hout⟩ := submit_logs_some_ok task m.push rest now env
    obtain ⟨a, b, c⟩ := out
    refine ⟨(a, b, c), hout, ?_⟩
    simp only [retry_failed, heapPeek, h, Option.map_some']
    rw [if_neg (by omega : ¬ m.retry_at > now), hout]

/-- C7 witness: on the one-entry queue holding `fp1`, due at the current
clock reading `2000000000`, the single-retry step resubmits it and reports
work done. -/
theorem c7_retry_one_witness :
    ∃ out, submit_logs taskRetry1 fp1.push [] (some 2000000000) env503 = Except.ok out ∧
      retry_failed taskRetry1 [fp1] (some 2000000000) env503 =
        Except.ok (true, out.2.1, out.2.2) :=
  (c7_retry_one taskRetry1 [fp1] 2000000000 env503).2.2.2 fp1 [] (by decide) (by decide)

/-- C5: whenever `fail` schedules a retry — i.e. whenever its resulting queue
contains an entry that was not already queued — that entry's failure counter
is the caller's counter post-increment, its `retry_at` equals the clock
reading at insertion time plus `2 ^ failures` seconds in nanoseconds, and it
lies strictly in the future relative to the insertion time.  (The n-th
consecutive failure of a lineage calls `fail` with `lp.failures = n - 1`, so
the pushed entry carries `failures = n` and is scheduled at `now + 2 ^ n`
seconds.) -/
theorem c5_backoff (task : LokiTask) (lp : LokiPush) (dlq : List FailedPush)
    (emsg : String) (tr : Bool) (now : Nat) (env : Env) (lp' : LokiPush)
    (dlq' : List FailedPush) (env' : Env) (fp : FailedPush)
    (h : fail task lp dlq emsg tr (some now) env = Except.ok (lp', dlq', env'))
    (hmem : fp ∈ dlq') (hnew : fp ∉ dlq) :
    fp.push.failures = lp.failures + 1 ∧
    fp.retry_at = now + 2 ^ fp.push.failures * 1000000000 ∧
    now < fp.retry_at := by
  have key : dlq' = dlq ∨ dlq' = dlq ++
      [{ retry_at := now + 2 ^ (lp.failures + 1) * 1000000000,
         push := { lp with failures := lp.failures + 1 } }] := by
    unfold fail at h
    split at h
    · simp only [Except.ok.injEq, Prod.mk.injEq] at h
      exact Or.inl h.2.1.symm
    · split at h
      · split at h
        · simp only [Except.ok.injEq, Prod.mk.injEq] at h
          exact Or.inl h.2.1.symm
        · simp only [fail_push, Except.ok.injEq, Prod.mk.injEq] at h
          exact Or.inr h.2.1.symm
      · simp only [fail_push, Except.ok.injEq, Prod.mk.injEq] at h
        exact Or.inr h.2.1.symm
  rcases key with rfl | rfl
  · exact absurd hmem hnew
  · rcases List.mem_append.mp hmem with hmem' | hmem'
    · exact absurd hmem' hnew
    · rcases List.mem_singleton.mp hmem' with rfl
      refine ⟨rfl, rfl, ?_⟩
      show now < now + 2 ^ (lp.failures + 1) * 1000000000
      have hpos : 0 < 2 ^ (lp.failures + 1) * 1000000000 := by positivity
      omega

/-- C5 witness: the first transient failure of `lpOne` at clock reading 0
under `taskRetry1` enqueues `fp1`, whose counter is 1, whose `retry_at` is
`0 + 2 ^ 1` seconds in nanoseconds, strictly after 0. -/
theorem c5_backoff_witness :
    fp1.push.failures = lpOne.failures + 1 ∧
    fp1.retry_at = 0 + 2 ^ fp1.push.failures * 1000000000 ∧
    0 < fp1.retry_at := by
  refine c5_backoff taskRetry1 lpOne [] "HTTP 503" true 0 envEmpty _ _ _ fp1 rfl ?_ ?_
  · decide
  · decide

/-! Shape lemmas: how `fail` and `submit_logs` transform the retry queue. -/

/-- `fail` either leaves the queue unchanged (drop, non-transient, exhausted)
or appends exactly one entry: the caller's batch with its counter
incremented, scheduled `2 ^ failures` seconds after the clock reading; and
it only appends while the counter has not exceeded `max_retries`. -/
lemma fail_shape (task : LokiTask) (lp : LokiPush) (dlq : List FailedPush)
    (emsg : String) (tr : Bool) (clock : Option Nat) (env : Env)
    (out : LokiPush × List FailedPush × Env)
    (h : fail task lp dlq emsg tr clock env = Except.ok out) :
    out.2.1 = dlq ∨
    (∃ now, clock = some now ∧
      out.2.1 = dlq ++ [{ retry_at := now + 2 ^ (lp.failures + 1) * 1000000000,
                          push := { lp with failures := lp.failures + 1 } }] ∧
      ∀ mr, task.failure_policy = FailurePolicy.retry mr → lp.failures ≤ mr) := by
  unfold fail at h
  split at h
  · cases h
    exact Or.inl rfl
  · split at h
    · rename_i max_retries hpol
      split at h
      · cases h
        exact Or.inl rfl
      · rename_i hguard
        simp only [fail_push] at h
        split at h
        · simp at h
        · rename_i now
          cases h
          refine Or.inr ⟨now, rfl, rfl, ?_⟩
          intro mr hmr
          rw [hpol] at hmr
          cases hmr
          omega
    · rename_i hpol
      simp only [fail_push] at h
      split at h
      · simp at h
      · rename_i now
        cases h
        refine Or.inr ⟨now, rfl, rfl, ?_⟩
        intro mr hmr
        rw [hpol] at hmr
        cases hmr

/-- `submit_logs` either leaves the queue unchanged (no first timestamp,
success, or a dropped failure) or appends the one `fail_push` entry, and it
can only append when the submitted batch had a first timestamp. -/
lemma submit_shape (task : LokiTask) (lp : LokiPush) (dlq : List FailedPush)
    (clock : Option Nat) (env : Env) (out : LokiPush × List FailedPush × Env)
    (h : submit_logs task lp dlq clock env = Except.ok out) :
    out.2.1 = dlq ∨
    (lp.first ≠ none ∧ ∃ now, clock = some now ∧
      out.2.1 = dlq ++ [{ retry_at := now + 2 ^ (lp.failures + 1) * 1000000000,
                          push := { lp with failures := lp.failures + 1 } }] ∧
      ∀ mr, task.failure_policy = FailurePolicy.retry mr → lp.failures ≤ mr) := by
  simp only [submit_logs] at h
  split at h
  · cases h
    exact Or.inl rfl
  · rename_i hne
    split at h
    · cases h
      exact Or.inl rfl
    · rcases fail_shape _ _ _ _ _ _ _ _ h with heq | ⟨now, hc, heq, hbound⟩
      · exact Or.inl heq
      · exact Or.inr ⟨hne, now, hc, heq, hbound⟩

/-- The queue only grows across `submit_logs`: every previously queued entry
is still queued afterwards. -/
lemma submit_superset (task : LokiTask) (lp : LokiPush) (dlq : List FailedPush)
    (clock : Option Nat) (env : Env) (out : LokiPush × List FailedPush × Env)
    (h : submit_logs task lp dlq clock env = Except.ok out) :
    ∀ fp ∈ dlq, fp ∈ out.2.1 := by
  intro fp hfp
  rcases submit_shape _ _ _ _ _ _ h with heq | ⟨_, now, _, heq, _⟩
  · rw [heq]; exact hfp
  · rw [heq]; exact List.mem_append.mpr (Or.inl hfp)

/-- Every entry in `submit_logs`'s resulting queue was either already queued
or is a batch whose `first` timestamp is set. -/
lemma submit_first_pres (task : LokiTask) (lp : LokiPush) (dlq : List FailedPush)
    (clock : Option Nat) (env : Env) (out : LokiPush × List FailedPush × Env)
    (h : submit_logs task lp dlq clock env = Except.ok out) :
    ∀ fp ∈ out.2.1, fp ∈ dlq ∨ fp.push.first ≠ none := by
  intro fp hfp
  rcases submit_shape _ _ _ _ _ _ h with heq | ⟨hne, now, _, heq, _⟩
  · rw [heq] at hfp; exact Or.inl hfp
  · rw [heq] at hfp
    rcases List.mem_append.mp hfp with hfp' | hfp'
    · exact Or.inl hfp'
    · rcases List.mem_singleton.mp hfp' with rfl
      exact Or.inr hne

/-- Under `Retry(mr)`, every entry in `submit_logs`'s resulting queue was
either already queued or carries a failure counter in `[1, mr + 1]`. -/
lemma submit_mem_range (task : LokiTask) (mr : Nat) (lp : LokiPush)
    (dlq : List FailedPush) (clock : Option Nat) (env : Env)
    (out : LokiPush × List FailedPush × Env)
    (hpol : task.failure_policy = FailurePolicy.retry mr)
    (h : submit_logs task lp dlq clock env = Except.ok out) :
    ∀ fp ∈ out.2.1, fp ∈ dlq ∨
      (1 ≤ fp.push.failures ∧ fp.push.failures ≤ mr + 1) := by
  intro fp hfp
  rcases submit_shape _ _ _ _ _ _ h with heq | ⟨_, now, _, heq, hbound⟩
  · rw [heq] at hfp; exact Or.inl hfp
  · rw [heq] at hfp
    rcases List.mem_append.mp hfp with hfp' | hfp'
    · exact Or.inl hfp'
    · rcases List.mem_singleton.mp hfp' with rfl
      have hb := hbound mr hpol
      refine Or.inr ⟨Nat.succ_le_succ (Nat.zero_le _), ?_⟩
      show lp.failures + 1 ≤ mr + 1
      omega

/-- Under `Retry(mr)`, `retry_failed` yields a queue whose entries were
already queued or carry a failure counter in `[1, mr + 1]`. -/
lemma retry_failed_mem_range (task : LokiTask) (mr : Nat)
    (dlq : List FailedPush) (clock : Option Nat) (env : Env)
    (out : Bool × List FailedPush × Env)
    (hpol : task.failure_policy = FailurePolicy.retry mr)
    (h : retry_failed task dlq clock env = Except.ok out) :
    ∀ fp ∈ out.2.1, fp ∈ dlq ∨
      (1 ≤ fp.push.failures ∧ fp.push.failures ≤ mr + 1) := by
  intro fp hfp
  simp only [retry_failed] at h
  split at h
  · simp at h
  · split at h
    · cases h; exact Or.inl hfp
    · split at h
      · cases h; exact Or.inl hfp
      · split at h
        · simp at h
        · rename_i m rest hpop
          split at h
          · simp at h
          · rename_i lpx dlqx envx heq
            cases h
            rcases submit_mem_range task mr m.push rest _ env _ hpol heq fp hfp
              with hin | hrange
            · exact Or.inl ((heapPop_mem_sub dlq m rest hpop).2 fp hin)
            · exact Or.inr hrange

/-- Under `Retry(mr)`, the forced-drain loop yields a queue whose entries
were already in its accumulator or carry a failure counter in `[1, mr + 1]`. -/
lemma retryAllGo_mem_range (task : LokiTask) (mr : Nat) (clock : Option Nat)
    (hpol : task.failure_policy = FailurePolicy.retry mr) :
    ∀ (l t : List FailedPush) (env : Env) (out : List FailedPush × Env),
      retryAllGo task clock l t env = Except.ok out →
      ∀ fp ∈ out.1, fp ∈ t ∨
        (1 ≤ fp.push.failures ∧ fp.push.failures ≤ mr + 1) := by
  intro l
  induction l with
  | nil =>
    intro t env out h fp hfp
    simp only [retryAllGo] at h
    cases h
    exact Or.inl hfp
  | cons v rest ih =>
    intro t env out h fp hfp
    simp only [retryAllGo] at h
    split at h
    · simp at h
    · rename_i lpx tx envx heq
      rcases ih tx envx out h fp hfp with hin | hrange
      · exact submit_mem_range task mr v.push t clock env _ hpol heq fp hin
      · exact Or.inr hrange

/-- Under `Retry(mr)`, the due-retry loop yields a queue whose entries were
already queued or carry a failure counter in `[1, mr + 1]`. -/
lemma retryDrain_mem_range (task : LokiTask) (mr : Nat) (clock : Option Nat)
    (hpol : task.failure_policy = FailurePolicy.retry mr) :
    ∀ (fuel : Nat) (dlq : List FailedPush) (env : Env)
      (out : List FailedPush × Env),
      retryDrain task clock fuel dlq env = Except.ok out →
      ∀ fp ∈ out.1, fp ∈ dlq ∨
        (1 ≤ fp.push.failures ∧ fp.push.failures ≤ mr + 1) := by
  intro fuel
  induction fuel with
  | zero =>
    intro dlq env out h fp hfp
    simp only [retryDrain] at h
    cases h
    exact Or.inl hfp
  | succ fuel ih =>
    intro dlq env out h fp hfp
    simp only [retryDrain] at h
    split at h
    · simp at h
    · rename_i did dlqx envx heq
      split at h
      · rcases ih dlqx envx out h fp hfp with hin | hrange
        · exact retry_failed_mem_range task mr dlq clock env _ hpol heq fp hin
        · exact Or.inr hrange
      · cases h
        exact retry_failed_mem_range task mr dlq clock env _ hpol heq fp hfp

/-- C10: under `failure_policy = Retry(max_retries)`, every entry present in
the retry delay queue after any engine-loop iteration was either already
queued before it or carries a failure counter in `[1, max_retries + 1]`
(every push goes through `fail`, which increments the counter once and is
guarded by `failures ≤ max_retries`); consequently the backoff factor
`2 ^ failures` of every newly queued entry is at most `2 ^ (max_retries + 1)`. -/
theorem c10_failures_bounded (task : LokiTask) (mr : Nat) (st : TaskState)
    (r : RecvResult) (now : Nat) (env : Env) (st' : TaskState) (env' : Env)
    (fp : FailedPush)
    (hpol : task.failure_policy = FailurePolicy.retry mr)
    (h : step task st r (some now) env = Except.ok (st', env'))
    (hmem : fp ∈ st'.dlq) :
    fp ∈ st.dlq ∨
      (1 ≤ fp.push.failures ∧ fp.push.failures ≤ mr + 1 ∧
        2 ^ fp.push.failures ≤ 2 ^ (mr + 1)) := by
  have main : fp ∈ st.dlq ∨
      (1 ≤ fp.push.failures ∧ fp.push.failures ≤ mr + 1) := by
    cases r with
    | msg m =>
      cases m with
      | Log time log_line =>
        simp only [step] at h
        split at h
        · simp at h
        · rename_i lp1 dlq1 env1 heq
          cases h
          have hmem1 : fp ∈ dlq1 := hmem
          split at heq
          · exact submit_mem_range task mr _ st.dlq _ env _ hpol heq fp hmem1
          · cases heq
            exact Or.inl hmem1
      | Flush =>
        simp only [step] at h
        split at h
        · simp at h
        · rename_i lp1 dlq1 env1 heq
          split at h
          · simp at h
          · rename_i dlq2 env2 heq2
            cases h
            rcases retryAllGo_mem_range task mr _ hpol dlq1 [] env1 _ heq2 fp hmem
              with hin | hrange
            · simp at hin
            · exact Or.inr hrange
    | closed =>
      simp only [step] at h
      split at h
      · simp at h
      · rename_i lp1 dlq1 env1 heq
        split at h
        · simp at h
        · rename_i dlq2 env2 heq2
          cases h
          rcases retryAllGo_mem_range task mr _ hpol dlq1 [] env1 _ heq2 fp hmem
            with hin | hrange
          · simp at hin
          · exact Or.inr hrange
    | timeout =>
      simp only [step] at h
      split at h
      · rename_i first_timestamp
        split at h
        · split at h
          · simp at h
          · rename_i lp1 dlq1 env1 heq
            cases h
            exact submit_mem_range task mr st.lp st.dlq _ env _ hpol heq fp hmem
        · split at h
          · simp at h
          · rename_i dlq1 env1 heq
            cases h
            exact retryDrain_mem_range task mr _ hpol _ st.dlq env _ heq fp hmem
      · split at h
        · simp at h
        · rename_i dlq1 env1 heq
          cases h
          exact retryDrain_mem_range task mr _ hpol _ st.dlq env _ heq fp hmem
  rcases main with hin | ⟨h1, h2⟩
  · exact Or.inl hin
  · exact Or.inr ⟨h1, h2, Nat.pow_le_pow_right (by norm_num) h2⟩

/-- An environment whose next two POSTs both answer HTTP 503. -/
def env2x503 : Env :=
  { sends := [SendResult.err (UreqError.statusCode 503),
              SendResult.err (UreqError.statusCode 503)], effects := [] }

/-- The queue entry left after a flush during which both the open batch
`lpOne` and its first retry fail with HTTP 503 under `taskRetry1`. -/
def fp2 : FailedPush :=
  { retry_at := 4000000000,
    push := { streams := { stream := [], values := [("1", "a")] },
              first := some 1, failures := 2 } }

/-- C10 witness: a `Flush` on `stOneEntry` (empty queue, one-entry open
batch) under `Retry(1)` with two consecutive HTTP 503 answers leaves exactly
the twice-failed entry queued; the theorem instantiated there bounds its
counter by `max_retries + 1 = 2` and its backoff factor by `2 ^ 2`. -/
theorem c10_failures_bounded_witness :
    fp2 ∈ stOneEntry.dlq ∨
      (1 ≤ fp2.push.failures ∧ fp2.push.failures ≤ 1 + 1 ∧
        2 ^ fp2.push.failures ≤ 2 ^ (1 + 1)) :=
  c10_failures_bounded taskRetry1 1 stOneEntry (RecvResult.msg LokiTaskMsg.Flush)
    0 env2x503 _ _ fp2 rfl rfl (by decide)

/-! Effect-trace lemmas: every delivery-path component only appends to the
effect trace, and a performed POST leaves an `attempt` effect. -/

/-- `fail` only appends to the effect trace. -/
lemma fail_effects (task : LokiTask) (lp : LokiPush) (dlq : List FailedPush)
    (emsg : String) (tr : Bool) (clock : Option Nat) (env : Env)
    (out : LokiPush × List FailedPush × Env)
    (h : fail task lp dlq emsg tr clock env = Except.ok out) :
    ∃ added, out.2.2.effects = env.effects ++ added := by
  unfold fail at h
  split at h
  · cases h; exact ⟨_, rfl⟩
  · split at h
    · rename_i mrs hpol
      split at h
      · cases h; exact ⟨_, rfl⟩
      · simp only [fail_push] at h
        split at h
        · simp at h
        · cases h; exact ⟨_, rfl⟩
    · simp only [fail_push] at h
      split at h
      · simp at h
      · cases h; exact ⟨[], (List.append_nil _).symm⟩

/-- `submit_logs` only appends to the effect trace, and when the batch has a
first timestamp the appended effects start with the POST attempt carrying
the batch. -/
lemma submit_effects (task : LokiTask) (lp : LokiPush) (dlq : List FailedPush)
    (clock : Option Nat) (env : Env) (out : LokiPush × List FailedPush × Env)
    (h : submit_logs task lp dlq clock env = Except.ok out) :
    ∃ added, out.2.2.effects = env.effects ++ added ∧
      (lp.first ≠ none → Effect.attempt lp ∈ added) := by
  simp only [submit_logs] at h
  split at h
  · rename_i hn
    cases h
    exact ⟨[], (List.append_nil _).symm, fun hne => absurd hn hne⟩
  · split at h
    · cases h
      exact ⟨[Effect.attempt lp], rfl, fun _ => List.mem_singleton_self _⟩
    · obtain ⟨addedF, hF⟩ := fail_effects _ _ _ _ _ _ _ _ h
      refine ⟨Effect.attempt lp :: addedF, ?_, fun _ => List.mem_cons_self _ _⟩
      rw [hF]
      simp [emit, takeSend, List.append_assoc]

/-- The forced-drain loop only appends to the effect trace, and every drained
entry whose batch has a first timestamp leaves its POST attempt there. -/
lemma retryAllGo_effects (task : LokiTask) (clock : Option Nat) :
    ∀ (l t : List FailedPush) (env : Env) (out : List FailedPush × Env),
      retryAllGo task clock l t env = Except.ok out →
      ∃ added, out.2.effects = env.effects ++ added ∧
        ∀ fp ∈ l, fp.push.first ≠ none → Effect.attempt fp.push ∈ added := by
  intro l
  induction l with
  | nil =>
    intro t env out h
    simp only [retryAllGo] at h
    cases h
    exact ⟨[], (List.append_nil _).symm, by simp⟩
  | cons v rest ih =>
    intro t env out h
    simp only [retryAllGo] at h
    split at h
    · simp at h
    · rename_i lpx tx envx heq
      obtain ⟨addedS, hS, hAS⟩ := submit_effects _ _ _ _ _ _ heq
      obtain ⟨addedR, hR, hAR⟩ := ih tx envx out h
      refine ⟨addedS ++ addedR, ?_, ?_⟩
      · have hS' : envx.effects = env.effects ++ addedS := hS
        rw [hR, hS', List.append_assoc]
      · intro fp hfp hne
        rcases List.mem_cons.mp hfp with rfl | hfp'
        · exact List.mem_append.mpr (Or.inl (hAS hne))
        · exact List.mem_append.mpr (Or.inr (hAR fp hfp' hne))

/-- With an exhausted send oracle every POST succeeds, so `submit_logs`
leaves the queue unchanged and the oracle exhausted. -/
lemma submit_sends_nil (task : LokiTask) (lp : LokiPush) (dlq : List FailedPush)
    (clock : Option Nat) (env : Env) (out : LokiPush × List FailedPush × Env)
    (h0 : env.sends = [])
    (h : submit_logs task lp dlq clock env = Except.ok out) :
    out.2.1 = dlq ∧ out.2.2.sends = [] := by
  simp only [submit_logs, takeSend, h0, List.headD_nil, List.tail_nil] at h
  split at h
  · cases h; exact ⟨rfl, h0⟩
  · cases h; exact ⟨rfl, rfl⟩

/-- With an exhausted send oracle the forced drain re-queues nothing. -/
lemma retryAllGo_sends_nil (task : LokiTask) (clock : Option Nat) :
    ∀ (l t : List FailedPush) (env : Env) (out : List FailedPush × Env),
      env.sends = [] → retryAllGo task clock l t env = Except.ok out →
      out.1 = t ∧ out.2.sends = [] := by
  intro l
  induction l with
  | nil =>
    intro t env out h0 h
    simp only [retryAllGo] at h
    cases h
    exact ⟨rfl, h0⟩
  | cons v rest ih =>
    intro t env out h0 h
    simp only [retryAllGo] at h
    split at h
    · simp at h
    · rename_i lpx tx envx heq
      obtain ⟨hd, hs⟩ := submit_sends_nil _ _ _ _ _ _ h0 heq
      obtain ⟨hd2, hs2⟩ := ih tx envx out hs h
      exact ⟨hd2.trans hd, hs2⟩

/-- C6: processing a `Flush` message submits the open batch, force-attempts
delivery of every entry that was in the retry delay queue — regardless of
its scheduled `retry_at` — and only then emits the flush-synchronizer signal
(the signal is the last recorded effect, after every attempt); the resulting
queue is the fresh one collected by the forced pass, replacing the old queue
and retained in the state for future polling (in particular, when every
forced attempt succeeds the new queue is empty).  The hypothesis that queued
batches carry a first timestamp holds of every entry `fail` ever queues,
since it clones the batch before resetting the caller's copy. -/
theorem c6_flush_signal_after_forced_retry (task : LokiTask) (st : TaskState)
    (now : Nat) (env : Env)
    (hq : ∀ fp ∈ st.dlq, fp.push.first ≠ none) :
    ∃ st' env' pre,
      step task st (RecvResult.msg LokiTaskMsg.Flush) (some now) env =
        Except.ok (st', env') ∧
      st'.flushed = true ∧
      env'.effects = env.effects ++ pre ++ [Effect.signal] ∧
      (st.lp.first ≠ none → Effect.attempt st.lp ∈ pre) ∧
      (∀ fp ∈ st.dlq, Effect.attempt fp.push ∈ pre) ∧
      (env.sends = [] → st'.dlq = []) := by
  obtain ⟨out, hout⟩ := submit_logs_some_ok task st.lp st.dlq now env
  obtain ⟨lp1, dlq1, env1⟩ := out
  obtain ⟨out2, hout2⟩ := retryAllGo_some_ok task now dlq1 [] env1
  obtain ⟨dlq2, env2⟩ := out2
  have hstep : step task st (RecvResult.msg LokiTaskMsg.Flush) (some now) env =
      Except.ok ({ st with lp := lp1, dlq := dlq2, flushed := true },
        emit Effect.signal env2) := by
    simp only [step, hout, retry_all_failed, hout2]
  obtain ⟨addedS, hS, hAS⟩ := submit_effects _ _ _ _ _ _ hout
  have hfirst1 : ∀ fp ∈ dlq1, fp.push.first ≠ none := by
    intro fp hfp
    rcases submit_first_pres _ _ _ _ _ _ hout fp hfp with hin | hne
    · exact hq fp hin
    · exact hne
  obtain ⟨addedR, hR, hAR⟩ := retryAllGo_effects task (some now) dlq1 [] env1 _ hout2
  refine ⟨_, _, addedS ++ addedR, hstep, rfl, ?_, ?_, ?_, ?_⟩
  · show env2.effects ++ [Effect.signal] =
      env.effects ++ (addedS ++ addedR) ++ [Effect.signal]
    have hS' : env1.effects = env.effects ++ addedS := hS
    have hR' : env2.effects = env1.effects ++ addedR := hR
    rw [hR', hS']
    simp [List.append_assoc]
  · intro hne
    exact List.mem_append.mpr (Or.inl (hAS hne))
  · intro fp hfp
    have hin1 : fp ∈ dlq1 := submit_superset _ _ _ _ _ _ hout fp hfp
    exact List.mem_append.mpr (Or.inr (hAR fp hin1 (hfirst1 fp hin1)))
  · intro h0
    obtain ⟨hd1, hs1⟩ := submit_sends_nil _ _ _ _ _ _ h0 hout
    have hd1' : dlq1 = st.dlq := hd1
    obtain ⟨hd2, hs2⟩ := retryAllGo_sends_nil task (some now) dlq1 [] env1 _ hs1 hout2
    exact hd2

/-- C6 witness: flushing `stOneEntry` (one-entry open batch, empty queue)
with a successful POST yields the signalled state with an empty queue, the
attempt recorded before the signal. -/
theorem c6_flush_signal_after_forced_retry_witness :
    ∃ st' env' pre,
      step taskRetry1 stOneEntry (RecvResult.msg LokiTaskMsg.Flush) (some 0)
          envEmpty = Except.ok (st', env') ∧
      st'.flushed = true ∧
      env'.effects = envEmpty.effects ++ pre ++ [Effect.signal] ∧
      (stOneEntry.lp.first ≠ none → Effect.attempt stOneEntry.lp ∈ pre) ∧
      (∀ fp ∈ stOneEntry.dlq, Effect.attempt fp.push ∈ pre) ∧
      (envEmpty.sends = [] → st'.dlq = []) :=
  c6_flush_signal_after_forced_retry taskRetry1 stOneEntry 0 envEmpty (by decide)

end LogLoki
